import Mathlib

/-!
Verification of the ACER implementation in `baselines/acer/acer_simple.py`
(stable-baselines fork).  We shallowly embed the numeric computations over ℚ
(ideal arithmetic standing for the float32 of the code), stateful updates as
explicit state passing, and the TensorFlow graph's control dependencies as
sequencing.  Batches `[n_envs * n_steps]` are modelled per-(env, step) by
functions `ℕ → ℚ`; elementwise TF ops act pointwise across environments, so
the per-environment step index is the only structure the recursions see.
-/

namespace Acer

/-- The fixed epsilon `eps = 1e-6` of `ACER.setup_model`. -/
def eps : ℚ := 1 / 1000000

/-- Code: `tf.stop_gradient`: identity on forward values (it only blocks gradient
flow, which our value-level embedding does not track). -/
def stop_gradient (x : ℚ) : ℚ := x

/-- Code: `tf.nn.relu`. -/
def relu (x : ℚ) : ℚ := max 0 x

/-! ## `q_retrace` (acer_simple.py lines 28-57)

The code precomputes `rho_bar = min(1, rho_i)`, splits every batch tensor into
a list of per-step `[n_envs]` tensors, and runs the backward loop
`for i in range(n_steps - 1, -1, -1)` carrying `qret`, appending each
intermediate `qret` to `qrets` and reversing at the end.  All tensor ops are
elementwise in the environment axis, so we embed the loop for one environment;
`rewards i`, `dones i`, … are the step-`i` entries for that environment. -/

/-- The loop body of `q_retrace`: processes the given list of step indices in
order (the code iterates `n_steps-1, …, 0`), carrying `qret`; returns the
`qrets` list in processing order (the code reverses it afterwards). -/
def qRetraceGo (gamma : ℚ) (rewards dones q_is values rho_bar : ℕ → ℚ) :
    List ℕ → ℚ → List ℚ
  | [], _ => []
  | i :: rest, qret =>
      let qret1 := rewards i + gamma * qret * (1 - dones i)
      qret1 :: qRetraceGo gamma rewards dones q_is values rho_bar rest
        (rho_bar i * (qret1 - q_is i) + values i)

/-- Code: `q_retrace(rewards, dones, q_i, values, rho_i, n_envs, n_steps, gamma)`
for one environment: `rho_bar = min(1, rho_i)`; the carried `qret` starts at
`values n_steps` (the final value of the `n_steps + 1`-long value sequence);
the result is the reversed list of intermediate `qret`s. -/
def q_retrace (gamma : ℚ) (rewards dones q_i values rho_i : ℕ → ℚ)
    (n_steps : ℕ) : List ℚ :=
  (qRetraceGo gamma rewards dones q_i values (fun j => min 1 (rho_i j))
    (List.range n_steps).reverse (values n_steps)).reverse

/-! Spec-side backward recursion, written from the claim's words: starting
from `qret = value[n_steps]`, for `i` from `n_steps - 1` down to `0`,
`target[i] = reward[i] + gamma * qret * (1 - done[i])` and the carried `qret`
becomes `min(1, rho_i[i]) * (target[i] - q_i[i]) + value[i]`. -/

/-- The carried `qret` of the spec recursion as it is about to process step
`i` (so `retraceCarry n_steps = value n_steps` is the bootstrap, and the
carry entering step `i` was produced while processing step `i + 1`). -/
def retraceCarry (gamma : ℚ) (rewards dones q_i values rho_i : ℕ → ℚ)
    (n_steps : ℕ) (i : ℕ) : ℚ :=
  if h : n_steps ≤ i then values n_steps
  else
    min 1 (rho_i i) *
      ((rewards i + gamma *
          retraceCarry gamma rewards dones q_i values rho_i n_steps (i + 1) *
          (1 - dones i)) - q_i i) + values i
  termination_by n_steps - i
  decreasing_by omega

/-- The spec recursion's target at step `i`. -/
def retraceTarget (gamma : ℚ) (rewards dones q_i values rho_i : ℕ → ℚ)
    (n_steps : ℕ) (i : ℕ) : ℚ :=
  rewards i + gamma *
    retraceCarry gamma rewards dones q_i values rho_i n_steps (i + 1) *
    (1 - dones i)

theorem retraceCarry_of_le (gamma : ℚ) (rewards dones q_i values rho_i : ℕ → ℚ)
    {n_steps i : ℕ} (h : n_steps ≤ i) :
    retraceCarry gamma rewards dones q_i values rho_i n_steps i =
      values n_steps := by
  rw [retraceCarry, dif_pos h]

theorem retraceCarry_of_lt (gamma : ℚ) (rewards dones q_i values rho_i : ℕ → ℚ)
    {n_steps i : ℕ} (h : i < n_steps) :
    retraceCarry gamma rewards dones q_i values rho_i n_steps i =
      min 1 (rho_i i) *
        (retraceTarget gamma rewards dones q_i values rho_i n_steps i - q_i i)
        + values i := by
  rw [retraceCarry, dif_neg (by omega), retraceTarget]

/-- The loop, started on indices `k-1, …, 0` with the carry the spec
recursion assigns entering step `k`, produces exactly the spec targets for
those indices. -/
theorem qRetraceGo_eq_targets (gamma : ℚ)
    (rewards dones q_i values rho_i : ℕ → ℚ) (n_steps : ℕ) :
    ∀ k, k ≤ n_steps →
      qRetraceGo gamma rewards dones q_i values (fun j => min 1 (rho_i j))
        (List.range k).reverse
        (retraceCarry gamma rewards dones q_i values rho_i n_steps k) =
      (List.range k).reverse.map
        (retraceTarget gamma rewards dones q_i values rho_i n_steps) := by
  intro k
  induction k with
  | zero => intro _; simp [qRetraceGo]
  | succ k ih =>
      intro hk
      rw [List.range_succ, List.reverse_append]
      simp only [List.reverse_cons, List.reverse_nil, List.nil_append,
        List.cons_append, List.map_cons]
      rw [qRetraceGo]
      have htar :
          rewards k + gamma *
            retraceCarry gamma rewards dones q_i values rho_i n_steps (k + 1) *
            (1 - dones k) =
          retraceTarget gamma rewards dones q_i values rho_i n_steps k := rfl
      simp only [htar]
      rw [← retraceCarry_of_lt gamma rewards dones q_i values rho_i
        (show k < n_steps by omega)]
      rw [ih (by omega)]

/-- Code: `q_retrace` returns the map of the spec target over `0, …, n_steps-1`. -/
theorem q_retrace_eq_map (gamma : ℚ) (rewards dones q_i values rho_i : ℕ → ℚ)
    (n_steps : ℕ) :
    q_retrace gamma rewards dones q_i values rho_i n_steps =
      (List.range n_steps).map
        (retraceTarget gamma rewards dones q_i values rho_i n_steps) := by
  unfold q_retrace
  rw [show values n_steps =
        retraceCarry gamma rewards dones q_i values rho_i n_steps n_steps from
      (retraceCarry_of_le gamma rewards dones q_i values rho_i le_rfl).symm,
    qRetraceGo_eq_targets gamma rewards dones q_i values rho_i n_steps n_steps
      le_rfl]
  rw [← List.map_reverse, List.reverse_reverse]

theorem getD_map_range (f : ℕ → ℚ) {n i : ℕ} (h : i < n) :
    ((List.range n).map f).getD i 0 = f i := by
  rw [List.getD_eq_getElem _ _ (by simpa using h)]
  simp

/-- C1: `q_retrace` returns exactly the targets of the backward recursion
(starting from `qret = value[n_steps]`; for `i` from `n_steps-1` down to `0`,
`target[i] = reward[i] + gamma * qret * (1 - done[i])` and the carried `qret`
becomes `min(1, rho_i[i]) * (target[i] - q_i[i]) + value[i]`, the importance
ratio truncated at `1.0` before use); in particular for `n_steps = 1` with
`done[0] = 1` the single target is `reward[0]` regardless of the bootstrap
value. -/
theorem q_retrace_matches_backward_recursion
    (gamma : ℚ) (rewards dones q_i values rho_i : ℕ → ℚ) (n_steps : ℕ) :
    (∀ i, i < n_steps →
      (q_retrace gamma rewards dones q_i values rho_i n_steps).getD i 0 =
        retraceTarget gamma rewards dones q_i values rho_i n_steps i)
    ∧ (n_steps = 1 → dones 0 = 1 →
        q_retrace gamma rewards dones q_i values rho_i n_steps =
          [rewards 0]) := by
  constructor
  · intro i hi
    rw [q_retrace_eq_map, getD_map_range _ hi]
  · intro h1 hd
    subst h1
    rw [q_retrace_eq_map]
    have : retraceTarget gamma rewards dones q_i values rho_i 1 0 =
        rewards 0 := by
      rw [retraceTarget, hd]
      ring
    rw [show List.range 1 = [0] from rfl, List.map_cons, List.map_nil, this]

/-- Witness for C1 at a concrete input (`n_steps = 1`, `done = 1`,
bootstrap value `7`). -/
theorem q_retrace_matches_backward_recursion_witness :
    ((q_retrace (9/10) (fun _ => 3) (fun _ => 1) (fun _ => 5) (fun _ => 7)
        (fun _ => 2) 1).getD 0 0 =
      retraceTarget (9/10) (fun _ => 3) (fun _ => 1) (fun _ => 5) (fun _ => 7)
        (fun _ => 2) 1 0)
    ∧ q_retrace (9/10) (fun _ => 3) (fun _ => 1) (fun _ => 5) (fun _ => 7)
        (fun _ => 2) 1 = [3] := by
  refine ⟨(q_retrace_matches_backward_recursion (9/10) (fun _ => 3)
      (fun _ => 1) (fun _ => 5) (fun _ => 7) (fun _ => 2) 1).1 0 (by norm_num),
    (q_retrace_matches_backward_recursion (9/10) (fun _ => 3) (fun _ => 1)
      (fun _ => 5) (fun _ => 7) (fun _ => 2) 1).2 rfl rfl⟩

/-! ## Policy loss, truncated importance sampling (acer_simple.py lines 190-210)

`rho = distribution_f / (mu_ph + eps)`, `rho_i` / `f_i` / `q_i` select the
taken action's entry, `adv = qret - value`,
`gain_f = log(f_i + eps) * stop_gradient(adv * min(correction_term, rho_i))`,
`loss_f = -reduce_mean(gain_f)`.  `tf.log` belongs to the numeric backend, so
the embedding takes it as a parameter. -/

/-- Code: `tf.reduce_mean` over a batch of `n` entries. -/
def reduce_mean (n : ℕ) (x : ℕ → ℚ) : ℚ := ((List.range n).map x).sum / n

/-- Code: `adv = qret - value` (line 207). -/
def adv (qret value : ℕ → ℚ) (i : ℕ) : ℚ := qret i - value i

/-- Code: `gain_f = log_f * tf.stop_gradient(adv * tf.minimum(correction_term, rho_i))`
with `log_f = tf.log(f_i + eps)` (lines 208-209). -/
def gain_f (log : ℚ → ℚ) (correction_term : ℚ) (f_i rho_i qret value : ℕ → ℚ)
    (i : ℕ) : ℚ :=
  log (f_i i + eps) *
    stop_gradient (adv qret value i * min correction_term (rho_i i))

/-- Code: `loss_f = -tf.reduce_mean(gain_f)` (line 210). -/
def loss_f (log : ℚ → ℚ) (correction_term : ℚ) (f_i rho_i qret value : ℕ → ℚ)
    (n_batch : ℕ) : ℚ :=
  - reduce_mean n_batch (gain_f log correction_term f_i rho_i qret value)

/-- The spec's formula for the truncated-IS loss, written from its words:
`-mean(log(f_i + eps) * stopgrad((qret - value) * min(correction_term, rho_i)))`. -/
def lossFSpec (log : ℚ → ℚ) (correction_term : ℚ) (f_i rho_i qret value : ℕ → ℚ)
    (n_batch : ℕ) : ℚ :=
  - reduce_mean n_batch (fun i =>
      log (f_i i + eps) *
        stop_gradient ((qret i - value i) * min correction_term (rho_i i)))

/-- C2: the coefficient multiplying the advantage inside the stop-gradient is
`min(correction_term, rho_i)`, hence never exceeds `correction_term` however
large `rho_i` is, and the loss equals the spec's
`-mean(log(f_i+eps) * stopgrad(advantage * min(correction_term, rho_i)))`. -/
theorem loss_f_truncated_importance (log : ℚ → ℚ) (correction_term : ℚ)
    (f_i rho_i qret value : ℕ → ℚ) (n_batch : ℕ) :
    loss_f log correction_term f_i rho_i qret value n_batch =
      lossFSpec log correction_term f_i rho_i qret value n_batch
    ∧ (∀ i, gain_f log correction_term f_i rho_i qret value i =
        log (f_i i + eps) * (adv qret value i * min correction_term (rho_i i))
        ∧ min correction_term (rho_i i) ≤ correction_term) := by
  exact ⟨rfl, fun i => ⟨rfl, min_le_left _ _⟩⟩

/-! ## Trust-region projection (acer_simple.py lines 237-254)

Per (env, step) row: `kl_grad = -f_polyak / (distribution_f + eps)`,
`k_dot_g = reduce_sum(kl_grad * grad, axis=-1)`,
`adj = max(0, (k_dot_g - delta) / (reduce_sum(square(kl_grad), axis=-1) + eps))`,
`grad_adjusted = grad - adj * kl_grad`. -/

/-- Code: `tf.reduce_sum(..., axis=-1)` over the `n_act` action entries of a row. -/
def reduce_sum_act (n_act : ℕ) (x : ℕ → ℚ) : ℚ := ((List.range n_act).map x).sum

/-- Code: `tf.square`. -/
def square (x : ℚ) : ℚ := x * x

/-- Code: `kl_grad = - f_polyak / (distribution_f + eps)` (line 241). -/
def kl_grad (f_polyak distribution_f : ℕ → ℚ) (a : ℕ) : ℚ :=
  - f_polyak a / (distribution_f a + eps)

/-- Code: `k_dot_g = tf.reduce_sum(kl_grad * grad, axis=-1)` (line 242). -/
def k_dot_g (n_act : ℕ) (f_polyak distribution_f grad : ℕ → ℚ) : ℚ :=
  reduce_sum_act n_act (fun a => kl_grad f_polyak distribution_f a * grad a)

/-- Code: `adj = tf.maximum(0, (reduce_sum(kl_grad * grad) - delta) /
(reduce_sum(square(kl_grad)) + eps))` (lines 243-244). -/
def adj (n_act : ℕ) (delta : ℚ) (f_polyak distribution_f grad : ℕ → ℚ) : ℚ :=
  max 0
    ((reduce_sum_act n_act
        (fun a => kl_grad f_polyak distribution_f a * grad a) - delta) /
      (reduce_sum_act n_act
        (fun a => square (kl_grad f_polyak distribution_f a)) + eps))

/-- Code: `grad = grad - tf.reshape(adj, …) * kl_grad` (line 252). -/
def adjusted_grad (n_act : ℕ) (delta : ℚ) (f_polyak distribution_f grad : ℕ → ℚ)
    (a : ℕ) : ℚ :=
  grad a - adj n_act delta f_polyak distribution_f grad *
    kl_grad f_polyak distribution_f a

theorem adj_denom_pos (n_act : ℕ) (f_polyak distribution_f : ℕ → ℚ) :
    0 < reduce_sum_act n_act
        (fun a => square (kl_grad f_polyak distribution_f a)) + eps := by
  have hsum : 0 ≤ reduce_sum_act n_act
      (fun a => square (kl_grad f_polyak distribution_f a)) := by
    apply List.sum_nonneg
    intro x hx
    simp only [List.mem_map] at hx
    obtain ⟨a, _, rfl⟩ := hx
    exact mul_self_nonneg _
  have heps : (0 : ℚ) < eps := by norm_num [eps]
  linarith

/-- C3: the per-row adjustment factor is
`adj = max(0, (Σ_a kl_grad·grad - delta) / (Σ_a kl_grad² + eps))`, hence
always nonnegative; the adjusted gradient is `grad - adj * kl_grad`; and on
any row whose linearized KL term `Σ_a kl_grad·grad` is at most `delta`, the
gradient is left unchanged. -/
theorem trust_region_projection (n_act : ℕ) (delta : ℚ)
    (f_polyak distribution_f grad : ℕ → ℚ) :
    adj n_act delta f_polyak distribution_f grad =
      max 0 ((k_dot_g n_act f_polyak distribution_f grad - delta) /
        (reduce_sum_act n_act
          (fun a => square (kl_grad f_polyak distribution_f a)) + eps))
    ∧ 0 ≤ adj n_act delta f_polyak distribution_f grad
    ∧ (∀ a, adjusted_grad n_act delta f_polyak distribution_f grad a =
        grad a - adj n_act delta f_polyak distribution_f grad *
          kl_grad f_polyak distribution_f a)
    ∧ (k_dot_g n_act f_polyak distribution_f grad ≤ delta →
        ∀ a, adjusted_grad n_act delta f_polyak distribution_f grad a =
          grad a) := by
  refine ⟨rfl, le_max_left _ _, fun a => rfl, fun hle a => ?_⟩
  have hden := adj_denom_pos n_act f_polyak distribution_f
  have hquot : (k_dot_g n_act f_polyak distribution_f grad - delta) /
      (reduce_sum_act n_act
        (fun a => square (kl_grad f_polyak distribution_f a)) + eps) ≤ 0 :=
    div_nonpos_iff.mpr (Or.inr ⟨by linarith, le_of_lt hden⟩)
  have hadj : adj n_act delta f_polyak distribution_f grad = 0 :=
    max_eq_left hquot
  rw [adjusted_grad, hadj]
  ring

/-- Witness for C3: a concrete row (`n_act = 2`, uniform probabilities, zero
gradient, `delta = 1`) on which the linearized KL term is below `delta` and
the gradient is indeed unchanged. -/
theorem trust_region_projection_witness :
    k_dot_g 2 (fun _ => 1/2) (fun _ => 1/2) (fun _ => 0) ≤ 1
    ∧ adjusted_grad 2 1 (fun _ => 1/2) (fun _ => 1/2) (fun _ => 0) 0 = 0 := by
  have hle : k_dot_g 2 (fun _ => 1/2) (fun _ => 1/2) (fun _ => 0) ≤ 1 := by
    norm_num [k_dot_g, reduce_sum_act, kl_grad, List.range_succ]
  exact ⟨hle, (trust_region_projection 2 1 (fun _ => 1/2) (fun _ => 1/2)
    (fun _ => 0)).2.2.2 hle 0⟩

/-! ## Polyak (EMA) shadow update ordering (acer_simple.py lines 164-175, 269-275)

`ema = tf.train.ExponentialMovingAverage(self.alpha)`; `_opt_op =
trainer.apply_gradients(grads)`; then
`with tf.control_dependencies([_opt_op]): _train = tf.group(ema_apply_op)`.
Running `_train` therefore performs the optimizer update first and applies
the EMA to the already-updated live parameters.  TF's EMA with decay `alpha`
sets `shadow ← alpha * shadow + (1 - alpha) * live`. -/

/-- Live parameters and their EMA shadow copies, indexed by parameter slot. -/
structure ParamState where
  live : ℕ → ℚ
  shadow : ℕ → ℚ

/-- Code: `ema_apply_op = ema.apply(self.params)`: every shadow becomes
`alpha * shadow + (1 - alpha) * live`, reading the current live value. -/
def ema_apply (alpha : ℚ) (s : ParamState) : ParamState :=
  { live := s.live
    shadow := fun i => alpha * s.shadow i + (1 - alpha) * s.live i }

/-- Code: `_opt_op = trainer.apply_gradients(grads)`: the optimizer rewrites the
live parameters (its update function is opaque here), shadows untouched. -/
def opt_op (optUpdate : (ℕ → ℚ) → (ℕ → ℚ)) (s : ParamState) : ParamState :=
  { live := optUpdate s.live, shadow := s.shadow }

/-- Code: `_train`: the control dependency on `_opt_op` sequences the optimizer
step strictly before the EMA apply (lines 273-275). -/
def train_op (alpha : ℚ) (optUpdate : (ℕ → ℚ) → (ℕ → ℚ))
    (s : ParamState) : ParamState :=
  ema_apply alpha (opt_op optUpdate s)

/-- C4: one `_train` run updates the live parameters first and then sets
every shadow to `alpha * old_shadow + (1 - alpha) * new_live`, computed from
the just-updated live parameters; the dependence on the post-step (not
pre-step) live value is exactly `(1 - alpha) * (new_live - old_live)`. -/
theorem polyak_update_after_optimizer (alpha : ℚ)
    (optUpdate : (ℕ → ℚ) → (ℕ → ℚ)) (s : ParamState) (i : ℕ) :
    train_op alpha optUpdate s = ema_apply alpha (opt_op optUpdate s)
    ∧ (train_op alpha optUpdate s).live i = optUpdate s.live i
    ∧ (train_op alpha optUpdate s).shadow i =
        alpha * s.shadow i + (1 - alpha) * optUpdate s.live i
    ∧ (train_op alpha optUpdate s).shadow i -
        (alpha * s.shadow i + (1 - alpha) * s.live i) =
        (1 - alpha) * (optUpdate s.live i - s.live i) := by
  refine ⟨rfl, rfl, rfl, ?_⟩
  show alpha * s.shadow i + (1 - alpha) * optUpdate s.live i -
      (alpha * s.shadow i + (1 - alpha) * s.live i) = _
  ring

/-! ## Runner done/mask split (acer_simple.py lines 486-525)

During `run()`, `mb_dones.append(self.dones)` happens at the top of each of
the `n_steps` loop iterations (so entry `t` is the `self.dones` value before
`env.step` of iteration `t`: the initial flags for `t = 0`, and the flags
returned by `env.step` of iteration `t - 1` otherwise), plus one final append
after the loop.  Then `mb_dones.swapaxes(1, 0)`, `mb_masks = mb_dones`, and
`mb_dones = mb_dones[:, 1:]`. -/

/-- The recorded `mb_dones` array (time-major, before the axis swap):
`dones0` are the flags on entry to the loop, `step_dones t` the flags
returned by `env.step` at iteration `t`. -/
def mb_dones_rec (dones0 : ℕ → Bool) (step_dones : ℕ → ℕ → Bool)
    (t env : ℕ) : Bool :=
  if t = 0 then dones0 env else step_dones (t - 1) env

/-- Code: `swapaxes(1, 0)` (line 517). -/
def swapaxes10 (a : ℕ → ℕ → Bool) (env t : ℕ) : Bool := a t env

/-- Code: `mb_masks = mb_dones` after the axis swap (line 519): all `n_steps + 1`
recorded flags. -/
def mb_masks (mb_dones : ℕ → ℕ → Bool) (env t : ℕ) : Bool :=
  swapaxes10 mb_dones env t

/-- Code: `mb_dones = mb_dones[:, 1:]` (line 520): the returned `dones` array. -/
def run_dones (mb_dones : ℕ → ℕ → Bool) (env t : ℕ) : Bool :=
  swapaxes10 mb_dones env (t + 1)

/-- C5 counterexample: with initial flags `False` and the single `env.step`
reporting `True` (`n_steps = 1`, one environment), `dones[0, 0]` is `True`
while `masks[0, 0]` is `False` — the returned `dones` is not the first-
`n_steps` truncation of the recorded done sequence. -/
theorem run_dones_not_first_truncation :
    run_dones (mb_dones_rec (fun _ => false) (fun _ _ => true)) 0 0 ≠
      mb_masks (mb_dones_rec (fun _ => false) (fun _ _ => true)) 0 0 := by
  decide

/-- C5 amended: `run()`'s `masks` holds all `n_steps + 1` recorded done
flags (`masks[env, t]` is recorded entry `t`), and `dones` is the truncation
to the *last* `n_steps` entries: `dones[env, t] = masks[env, t + 1]`, which
is the done flag produced by the same `env.step` call as `rewards[env, t]` —
the alignment with rewards that the Retrace computation needs. -/
theorem run_dones_is_shifted_masks (dones0 : ℕ → Bool)
    (step_dones : ℕ → ℕ → Bool) (env t : ℕ) :
    mb_masks (mb_dones_rec dones0 step_dones) env t =
      mb_dones_rec dones0 step_dones t env
    ∧ run_dones (mb_dones_rec dones0 step_dones) env t =
      mb_masks (mb_dones_rec dones0 step_dones) env (t + 1)
    ∧ run_dones (mb_dones_rec dones0 step_dones) env t = step_dones t env := by
  refine ⟨rfl, rfl, ?_⟩
  simp [run_dones, swapaxes10, mb_dones_rec]

/-! ## Frame-stack update (acer_simple.py lines 474-484)

`update_obs(obs, dones)`: if `dones` is given,
`self.obs *= (1 - dones.astype(np.uint8))[:, None, None, None]`; then
`self.obs = np.roll(self.obs, shift=-self.num_channels, axis=3)` and
`self.obs[:, :, :, -self.num_channels:] = obs`.  We model one `(h, w)` fiber:
a map from environment and channel index (`c < num_channels * nstack`) to the
pixel value (ℕ, since zeroing and overwriting stay within `uint8` range). -/

/-- Code: `self.obs *= (1 - dones.astype(np.uint8))[:, None, None, None]`. -/
def zero_on_done (obs : ℕ → ℕ → ℕ) (dones : ℕ → Bool) (env c : ℕ) : ℕ :=
  obs env c * (1 - if dones env then 1 else 0)

/-- Code: `np.roll(self.obs, shift=-num_channels, axis=3)` on the channel axis of
length `num_channels * nstack`. -/
def roll_channels (num_channels nstack : ℕ) (obs : ℕ → ℕ → ℕ)
    (env c : ℕ) : ℕ :=
  obs env ((c + num_channels) % (num_channels * nstack))

/-- Code: `_Runner.update_obs`: optional zeroing on done, roll, then overwrite the
newest `num_channels` channel slots with the raw frame (whose channels are
`0, …, num_channels - 1`). -/
def update_obs (num_channels nstack : ℕ) (obs raw : ℕ → ℕ → ℕ)
    (dones : Option (ℕ → Bool)) (env c : ℕ) : ℕ :=
  let zeroed : ℕ → ℕ → ℕ :=
    match dones with
    | none => obs
    | some d => zero_on_done obs d
  if num_channels * nstack - num_channels ≤ c then
    raw env (c - (num_channels * nstack - num_channels))
  else roll_channels num_channels nstack zeroed env c

/-- C6: when `update_obs` is called with done flags, an environment with
`done = True` ends up with the raw frame in the newest `num_channels` slots
and zeros in all older slots; an environment with `done = False` has its
stack shifted by one `num_channels`-frame group (channel `c` takes the old
channel `c + num_channels`, discarding the oldest frame) with the newest
slots overwritten by the raw frame. -/
theorem update_obs_reset_and_shift (num_channels nstack : ℕ)
    (obs raw : ℕ → ℕ → ℕ) (dones : ℕ → Bool) (env c : ℕ)
    (hn : 0 < nstack) (hc : c < num_channels * nstack) :
    (dones env = true →
      update_obs num_channels nstack obs raw (some dones) env c =
        if num_channels * (nstack - 1) ≤ c then
          raw env (c - num_channels * (nstack - 1))
        else 0)
    ∧ (dones env = false →
      update_obs num_channels nstack obs raw (some dones) env c =
        if num_channels * (nstack - 1) ≤ c then
          raw env (c - num_channels * (nstack - 1))
        else obs env (c + num_channels)) := by
  have hsub : num_channels * nstack - num_channels =
      num_channels * (nstack - 1) := by
    cases nstack with
    | zero => omega
    | succ m =>
        have : num_channels * (m + 1) = num_channels * m + num_channels := by
          ring
        simp [this]
  constructor
  · intro hd
    rw [update_obs, hsub]
    by_cases hle : num_channels * (nstack - 1) ≤ c
    · simp [hle]
    · simp only [hle, if_neg, if_false]
      rw [roll_channels, zero_on_done, hd]
      simp
  · intro hd
    rw [update_obs, hsub]
    by_cases hle : num_channels * (nstack - 1) ≤ c
    · simp [hle]
    · have hlt : c + num_channels < num_channels * nstack := by
        have h1 : num_channels * (nstack - 1) + num_channels =
            num_channels * nstack := by
          cases nstack with
          | zero => omega
          | succ m =>
              have : num_channels * (m + 1) =
                  num_channels * m + num_channels := by ring
              simp [this]
        omega
      simp only [hle, if_neg, if_false]
      rw [roll_channels, zero_on_done, hd]
      simp [Nat.mod_eq_of_lt hlt]

/-- Witness for C6: `num_channels = 1`, `nstack = 2`, old stack value `9`,
raw frame value `5`.  A done environment gets `0` in the old slot and `5` in
the newest; a live environment gets the shifted old value `9` and `5`. -/
theorem update_obs_reset_and_shift_witness :
    (0 : ℕ) < 2 ∧ (0 : ℕ) < 1 * 2
    ∧ update_obs 1 2 (fun _ _ => 9) (fun _ _ => 5) (some (fun _ => true)) 0 0
        = 0
    ∧ update_obs 1 2 (fun _ _ => 9) (fun _ _ => 5) (some (fun _ => false)) 0 0
        = 9 := by
  refine ⟨by norm_num, by norm_num, ?_, ?_⟩
  · have h := (update_obs_reset_and_shift 1 2 (fun _ _ => 9) (fun _ _ => 5)
      (fun _ => true) 0 0 (by norm_num) (by norm_num)).1 rfl
    simpa using h
  · have h := (update_obs_reset_and_shift 1 2 (fun _ _ => 9) (fun _ _ => 5)
      (fun _ => false) 0 0 (by norm_num) (by norm_num)).2 rfl
    simpa using h

/-! ## Epsilon-guarded denominators (acer_simple.py lines 152, 190-192,
213-219, 241-244) -/

/-- Code: `rho = distribution_f / (self.mu_ph + eps)` (line 191), one action entry. -/
def rho (distribution_f mu : ℚ) : ℚ := distribution_f / (mu + eps)

/-- C7: every division in the loss/gradient assembly has `eps = 1e-6` added
to its denominator, and for finite non-negative probability inputs each
such denominator is strictly positive: `mu + eps` (importance ratio),
`rho + eps` (bias-correction ratio), `distribution_f + eps` (KL gradient),
and `Σ_a kl_grad² + eps` (trust-region adjustment). -/
theorem epsilon_guards_denominators (distribution_f_a mu_a : ℚ)
    (f_polyak distribution_f : ℕ → ℚ) (n_act : ℕ)
    (hf : 0 ≤ distribution_f_a) (hmu : 0 ≤ mu_a) :
    0 < mu_a + eps
    ∧ 0 < rho distribution_f_a mu_a + eps
    ∧ 0 < distribution_f_a + eps
    ∧ 0 < reduce_sum_act n_act
        (fun a => square (kl_grad f_polyak distribution_f a)) + eps := by
  have heps : (0 : ℚ) < eps := by norm_num [eps]
  have hmu' : 0 < mu_a + eps := by linarith
  have hrho : 0 ≤ rho distribution_f_a mu_a :=
    div_nonneg hf (le_of_lt hmu')
  exact ⟨hmu', by linarith, by linarith,
    adj_denom_pos n_act f_polyak distribution_f⟩

/-- Witness for C7 at the boundary input: both probabilities `0`. -/
theorem epsilon_guards_denominators_witness :
    (0 : ℚ) ≤ 0 ∧
    (0 < (0 : ℚ) + eps
      ∧ 0 < rho 0 0 + eps
      ∧ 0 < (0 : ℚ) + eps
      ∧ 0 < reduce_sum_act 2 (fun a => square (kl_grad (fun _ => 1/2)
          (fun _ => 1/2) a)) + eps) :=
  ⟨le_refl 0, epsilon_guards_denominators 0 0 (fun _ => 1/2) (fun _ => 1/2) 2
    (le_refl 0) (le_refl 0)⟩

/-! ## Outer training-loop ordering (acer_simple.py lines 321-387)

One iteration of the `for steps in range(0, total_timesteps, self.n_batch)`
loop: `runner.run()`, `episode_stats.feed`, `buffer.put` when a buffer exists
(`buffer` is constructed iff `self.replay_ratio > 0`, lines 330-333), the
on-policy `_train_step`, then — guarded by
`self.replay_ratio > 0 and buffer.has_atleast(self.replay_start)` —
`samples_number = np.random.poisson(self.replay_ratio)` off-policy
`_train_step`s, each on a fresh `buffer.get()` sample.  The Poisson draw and
the buffer's fill state come from outside the loop body, so they are
parameters; the `j`-th off-policy step is tagged with `j`, the index of its
`buffer.get()` call, to record that each uses an independently drawn batch. -/

inductive LearnEvent where
  | rollout : LearnEvent
  | bufferPut : LearnEvent
  | onPolicyStep : LearnEvent
  | offPolicyStep : ℕ → LearnEvent
  deriving DecidableEq

/-- Code: `true` exactly on off-policy gradient steps. -/
def isOffPolicy : LearnEvent → Bool
  | LearnEvent.offPolicyStep _ => true
  | _ => false

/-- The event trace of one outer iteration of `ACER.learn`. -/
def learnIteration (replay_ratio : ℚ) (has_atleast_replay_start : Bool)
    (poisson_draw : ℕ) : List LearnEvent :=
  [LearnEvent.rollout]
    ++ (if 0 < replay_ratio then [LearnEvent.bufferPut] else [])
    ++ [LearnEvent.onPolicyStep]
    ++ (if 0 < replay_ratio ∧ has_atleast_replay_start = true then
          (List.range poisson_draw).map LearnEvent.offPolicyStep
        else [])

/-- C8: each outer iteration runs exactly one on-policy gradient step;
off-policy steps occur only when `replay_ratio > 0` and the buffer reports
`has_atleast(replay_start)`, in which case there are exactly `poisson_draw`
of them (possibly zero), they are the steps on samples `0, …, k - 1` drawn by
successive `buffer.get()` calls, and they all come strictly after the
on-policy step. -/
theorem learn_iteration_one_on_policy_then_replay (replay_ratio : ℚ)
    (has_atleast_replay_start : Bool) (poisson_draw : ℕ) :
    (learnIteration replay_ratio has_atleast_replay_start
        poisson_draw).count LearnEvent.onPolicyStep = 1
    ∧ (learnIteration replay_ratio has_atleast_replay_start
        poisson_draw).countP isOffPolicy =
      (if 0 < replay_ratio ∧ has_atleast_replay_start = true then
        poisson_draw else 0)
    ∧ ∃ pre,
        learnIteration replay_ratio has_atleast_replay_start poisson_draw =
          pre ++ LearnEvent.onPolicyStep ::
            (List.range
              (if 0 < replay_ratio ∧ has_atleast_replay_start = true then
                poisson_draw else 0)).map LearnEvent.offPolicyStep
        ∧ (∀ s, LearnEvent.offPolicyStep s ∉ pre)
        ∧ LearnEvent.onPolicyStep ∉ pre := by
  have hcount_map : ∀ k : ℕ,
      ((List.range k).map LearnEvent.offPolicyStep).count
        LearnEvent.onPolicyStep = 0 := by
    intro k
    rw [List.count_eq_zero]
    intro hmem
    simp only [List.mem_map] at hmem
    obtain ⟨a, _, h⟩ := hmem
    exact LearnEvent.noConfusion h
  have hcountP_map : ∀ k : ℕ,
      ((List.range k).map LearnEvent.offPolicyStep).countP isOffPolicy = k := by
    intro k
    have hall : ∀ a ∈ (List.range k).map LearnEvent.offPolicyStep,
        isOffPolicy a = true := by
      intro a ha
      simp only [List.mem_map] at ha
      obtain ⟨b, _, rfl⟩ := ha
      rfl
    have h2 := List.countP_eq_length.mpr hall
    simpa using h2
  by_cases h1 : 0 < replay_ratio
  · by_cases h2 : has_atleast_replay_start = true
    · refine ⟨?_, ?_, [LearnEvent.rollout, LearnEvent.bufferPut], ?_, ?_, ?_⟩
      · simp [learnIteration, h1, h2, List.count_append, hcount_map]
      · simp [learnIteration, h1, h2, List.countP_append, hcountP_map,
          isOffPolicy]
      · simp [learnIteration, h1, h2]
      · intro s
        simp [LearnEvent.offPolicyStep.injEq]
      · simp
    · refine ⟨?_, ?_, [LearnEvent.rollout, LearnEvent.bufferPut], ?_, ?_, ?_⟩
      · simp [learnIteration, h1, h2, List.count_append]
      · simp [learnIteration, h1, h2, List.countP_append, isOffPolicy]
      · simp [learnIteration, h1, h2]
      · intro s
        simp
      · simp
  · refine ⟨?_, ?_, [LearnEvent.rollout], ?_, ?_, ?_⟩
    · simp [learnIteration, h1, List.count_append]
    · simp [learnIteration, h1, List.countP_append, isOffPolicy]
    · simp [learnIteration, h1]
    · intro s
      simp
    · simp

/-! ## Report ops with `trust_region=False` (acer_simple.py lines 124-125,
277-286, 295-319)

`__init__` sets `self.run_ops = None` and `self.names_ops = None`.
`setup_model` builds the local lists `run_ops` / `names_ops` unconditionally
(lines 279-281) but the assignments `self.run_ops = …` / `self.names_ops = …`
sit *inside* the `if self.trust_region:` block (lines 282-286).  With
`trust_region=False` both attributes stay `None`, and `_train_step`'s
`self.sess.run(self.run_ops, td_map)` (line 319) is handed `None` and
raises instead of returning the report names and values. -/

/-- The eight report names built unconditionally (lines 280-281). -/
def names_ops_base : List String :=
  ["loss", "loss_q", "entropy", "loss_policy", "loss_f", "loss_bc",
    "explained_variance", "norm_grads"]

/-- The seven trust-region-only report names (lines 285-286). -/
def names_ops_trust : List String :=
  ["norm_grads_q", "norm_grads_policy", "avg_norm_grads_f", "avg_norm_k",
    "avg_norm_g", "avg_norm_k_dot_g", "avg_norm_adj"]

/-- Code: `self.names_ops` as `setup_model` leaves it: assigned (to the extended
list) only in the `if self.trust_region:` branch, otherwise the `None` from
`__init__`. -/
def setup_names_ops (trust_region : Bool) : Option (List String) :=
  if trust_region then some (names_ops_base ++ names_ops_trust) else none

/-- Code: `self.run_ops` likewise; we track only how many ops the list holds
(`[_train] + 8` base ops, `+ 7` trust-region ops). -/
def setup_run_ops_count (trust_region : Bool) : Option ℕ :=
  if trust_region then some (9 + 7) else none

/-- Code: `_train_step`'s result (line 319): the stored names and the values of
`sess.run(self.run_ops)[1:]` (one value per op after stripping `_train`);
`none` models the exception `sess.run(None)` raises. -/
def train_step_reports (trust_region : Bool) : Option (List String × ℕ) :=
  match setup_names_ops trust_region, setup_run_ops_count trust_region with
  | some names, some n => some (names, n - 1)
  | _, _ => none

/-- C9 is false of the code: with `trust_region=False` the op lists remain
`None` and `_train_step` fails, while with `trust_region=True` it returns
the fifteen report names and values — so `_train_step` fails precisely
because `trust_region` is `False`. -/
theorem train_step_fails_without_trust_region :
    train_step_reports false = none
    ∧ setup_names_ops false = none
    ∧ setup_run_ops_count false = none
    ∧ train_step_reports true =
        some (names_ops_base ++ names_ops_trust, 15) := by
  exact ⟨rfl, rfl, rfl, rfl⟩

/-! ## `predict` / `action_probability` (acer_simple.py lines 389-407)

`setup_model` constructs the policy: `step_model = self.policy(self.sess, …)`
(line 154) and stores `self.step = step_model.step` (line 290) — the policy
collaborator's `step` function lives on the constructed instance.  `predict`
and `action_probability`, however, call `self.policy.step(observation, state,
mask)` where `self.policy` is the constructor (class) passed to `__init__`,
not the constructed `step_model`. -/

/-- The step interface of a constructed policy model (spec §6):
`step(observation, recurrent_state, done_mask) ->
(action, behavior_probabilities, next_state)`. -/
structure StepFn (Obs St Act Prob : Type) where
  call : Obs → St → List Bool → Act × Prob × St

/-- A constructed policy object: the instance exposes `step`. -/
structure PolicyInstance (Obs St Act Prob : Type) where
  step : StepFn Obs St Act Prob

/-- Modelled from the spec: the policy classes themselves are outside this
file (`baselines/a2c/policies.py` is not under `src/`); per spec §6 the
Policy/Value Model *collaborator* — the constructed instance — "exposes
`step(observation, recurrent_state, done_mask)`", and `setup_model` (line
290) accordingly reads `step` off `step_model`, the constructed instance.
The constructor object that `__init__` receives as `policy` carries no bound
`step` for an attribute lookup (`step` is attached to instances), so looking
up `"step"` on the class yields nothing. -/
def classAttrStep {Obs St Act Prob : Type}
    (_ctor : Unit → PolicyInstance Obs St Act Prob) :
    Option (StepFn Obs St Act Prob) :=
  none

/-- The fields of an `ACER` model that `predict` / `action_probability`
touch: `self.policy` (the constructor argument), `self.initial_state`,
`self.n_envs`. -/
structure AcerModel (Obs St Act Prob : Type) where
  policy : Unit → PolicyInstance Obs St Act Prob
  initial_state : St
  n_envs : ℕ

/-- Code: `step_model = self.policy(...)` (line 154). -/
def step_model {Obs St Act Prob : Type} (m : AcerModel Obs St Act Prob) :
    PolicyInstance Obs St Act Prob :=
  m.policy ()

/-- Code: `self.step = step_model.step` (line 290): the model's step function. -/
def model_step {Obs St Act Prob : Type} (m : AcerModel Obs St Act Prob) :
    StepFn Obs St Act Prob :=
  (step_model m).step

/-- Code: `ACER.predict` as written (lines 389-397): default `state` to
`self.initial_state` and `mask` to `n_envs` copies of `False`, then
`actions, _, states = self.policy.step(observation, state, mask)` — an
attribute lookup of `step` on the constructor; `none` models the resulting
`AttributeError`. -/
def predict {Obs St Act Prob : Type} (m : AcerModel Obs St Act Prob)
    (observation : Obs) (state : Option St) (mask : Option (List Bool)) :
    Option (Act × St) :=
  let st := state.getD m.initial_state
  let mk := mask.getD (List.replicate m.n_envs false)
  (classAttrStep m.policy).map fun f =>
    ((f.call observation st mk).1, (f.call observation st mk).2.2)

/-- Code: `ACER.action_probability` as written (lines 399-407):
`_, proba, _ = self.policy.step(observation, state, mask)`. -/
def action_probability {Obs St Act Prob : Type} (m : AcerModel Obs St Act Prob)
    (observation : Obs) (state : Option St) (mask : Option (List Bool)) :
    Option Prob :=
  let st := state.getD m.initial_state
  let mk := mask.getD (List.replicate m.n_envs false)
  (classAttrStep m.policy).map fun f => (f.call observation st mk).2.1

/-- C10 is false of the code: for every constructed model and observation,
`predict` and `action_probability` never produce the pair / probability
vector that the model's step function (`self.step`, from the constructed
`step_model`) yields — the `self.policy.step` lookup fails, so neither
returns any value at all. -/
theorem predict_does_not_return_model_step {Obs St Act Prob : Type}
    (m : AcerModel Obs St Act Prob) (observation : Obs) (state : Option St)
    (mask : Option (List Bool)) :
    predict m observation state mask = none
    ∧ action_probability m observation state mask = none
    ∧ (∀ out : Act × St, predict m observation state mask ≠ some out)
    ∧ (∀ p : Prob, action_probability m observation state mask ≠ some p) := by
  refine ⟨rfl, rfl, fun out h => ?_, fun p h => ?_⟩
  · exact Option.noConfusion h
  · exact Option.noConfusion h

end Acer
